import Mathlib

/-!
Shallow embedding of the my-badges content-synchronization core
(`src/providers/gh/index.ts` and the update/normalize entry module),
together with proofs of its specified properties.

Modelling conventions:
* JS strings are `String` (or `List Char` where index arithmetic matters).
* The remote content store is represented by the outcome of the single
  GET the code performs (`FetchResult`); the adapter decodes base64
  transparently, so `FetchResult.success` carries the decoded text.
* Thrown JS exceptions are represented by the `JsError` inductive and
  functions that can observe them return `Except JsError _`.
* `JSON.parse` is an external platform primitive; it is passed in as an
  explicit `parse` function returning `Except JsError (List Badge)`.
* `quoteAttr` (an excluded string-escaping helper from `utils.ts`) is
  passed in as an explicit function argument.
-/

namespace MyBadges

/-- The published badge record (`Badge` in `badges.ts`); `tier` is optional
in stored JSON manifests (legacy records lack it). -/
structure Badge where
  id : String
  image : String
  desc : String
  body : String
  tier : Option Int
deriving DecidableEq, Repr

/-- Kinds of JS exceptions the code distinguishes: octokit `RequestError`
(with a response status), and plain JS errors such as the SyntaxError
raised by `JSON.parse` or a TypeError from iterating a non-array. -/
inductive JsError where
  | requestError (status : Nat)
  | jsParseError
  | jsTypeError
deriving DecidableEq, Repr

/-- Outcome of the single remote GET performed by `read`: either the
decoded content together with its sha and path, or a thrown error. -/
inductive FetchResult where
  | success (content sha path : String)
  | failure (e : JsError)
deriving DecidableEq, Repr

/-- The value produced by `read`: a string with optional `sha` and `path`
properties attached (`string & \x7b sha?, path? \x7d` in the source). -/
structure ReadResult where
  content : String
  sha : Option String
  path : Option String
deriving DecidableEq, Repr

/-- `read` from `src/providers/gh/index.ts` (lines 139-179).  In dry-run
mode it reads a local file; otherwise it performs the remote GET.  The
surrounding `try/catch` turns every failure into the plain string `''`
(with no `sha`/`path` attached), so `read` never throws. -/
def readImpl (dryrun : Bool) (localFile : Except Unit String)
    (remote : FetchResult) : ReadResult :=
  if dryrun then
    match localFile with
    | .ok s => ⟨s, none, none⟩
    | .error _ => ⟨"", none, none⟩
  else
    match remote with
    | .success c sha p => ⟨c, some sha, some p⟩
    | .failure _ => ⟨"", none, none⟩

/-- JS truthiness of a string: non-empty. -/
def truthyStr (s : String) : Bool := !s.isEmpty

/-- JS truthiness of a possibly-undefined string. -/
def truthyOpt : Option String → Bool
  | none => false
  | some s => truthyStr s

/-- `_contentPath || contentPath` from `upload`: use the path attached by
`read` unless it is falsy (absent or the empty string). -/
def pathOr (p : Option String) (fallback : String) : String :=
  match p with
  | some q => if q.isEmpty then fallback else q
  | none => fallback

/-- A write issued by `upload`: either a remote PUT (path, commit
message, content, optional sha) or, in dry-run mode, a local file write
under the working directory (`path.join(cwd, contentPath)`). -/
inductive WriteAction where
  | put (path message content : String) (sha : Option String)
  | localWrite (cwd contentPath content : String)
deriving DecidableEq, Repr

/-- The commit message built by `upload`:
`chore: $\x7bcontentPath\x7d $\x7bsha ? 'updated' : 'added'\x7d`. -/
def commitMessage (contentPath : String) (sha : Option String) : String :=
  "chore: " ++ contentPath ++ " " ++ (if truthyOpt sha then "updated" else "added")

/-- `upload` from `src/providers/gh/index.ts` (lines 181-218), returning
the write it issues.  In dry-run mode it writes the content to a local
file and never touches the sha; otherwise it PUTs the content with the
sha that was attached to it. -/
def upload (dryrun : Bool) (cwd contentPath content : String)
    (sha : Option String) (remotePath : Option String) : WriteAction :=
  if dryrun then .localWrite cwd contentPath content
  else .put (pathOr remotePath contentPath) (commitMessage contentPath sha) content sha

/-- `upsert` from `src/providers/gh/index.ts` (lines 125-137): read the
current content, return no write if it equals the desired content, and
otherwise issue the upload with the sha/path obtained by that read. -/
def upsert (dryrun : Bool) (cwd contentPath desired : String)
    (localFile : Except Unit String) (remote : FetchResult) : Option WriteAction :=
  let r := readImpl dryrun localFile remote
  if desired = r.content then none
  else some (upload dryrun cwd contentPath desired r.sha r.path)

/-- Effect of a (successful) write on the store: a PUT replaces the
remote content (the store assigns a fresh sha `newSha`); a dry-run write
replaces the local file; no write leaves everything unchanged. -/
def applyWrite (remote : FetchResult) (localFile : Except Unit String)
    (a : Option WriteAction) (newSha : String) : FetchResult × Except Unit String :=
  match a with
  | none => (remote, localFile)
  | some (.put p _ c _) => (.success c newSha p, localFile)
  | some (.localWrite _ _ c) => (remote, .ok c)

/-- Number of writes an `upsert` call performed. -/
def countWrites : Option WriteAction → Nat
  | none => 0
  | some _ => 1

/-- The tier normalization applied by `getBadges` to each loaded record:
`if (b.tier === undefined) b.tier = 0`. -/
def normTier (b : Badge) : Badge :=
  if b.tier = none then { b with tier := some 0 } else b

/-- `getBadges` from `src/providers/gh/index.ts` (lines 22-56): read the
manifest (the read itself swallows every fetch failure and yields `''`),
parse it as JSON, default missing tiers to 0.  The `catch` block
re-throws only `RequestError`s whose status is not 404 and otherwise
returns `[]`; the errors that can actually reach it come from the parse
or the iteration, never from the fetch. -/
def getBadges (dryrun : Bool) (localFile : Except Unit String) (remote : FetchResult)
    (parse : String → Except JsError (List Badge)) : Except JsError (List Badge) :=
  match parse (readImpl dryrun localFile remote).content with
  | .ok recs => .ok (recs.map normTier)
  | .error (.requestError s) => if s ≠ 404 then .error (.requestError s) else .ok []
  | .error _ => .ok []

/-- First split of a character list at a separator, JS-style: the part
before the first separator, and (if a separator occurred) the rest. -/
def splitFirst (sep : Char) : List Char → List Char × Option (List Char)
  | [] => ([], none)
  | c :: cs =>
    if c = sep then ([], some cs)
    else
      let r := splitFirst sep cs
      (c :: r.1, r.2)

/-- JS `s.split(sep, 2)`: at most the first two fields. -/
def jsSplit2 (sep : Char) (cs : List Char) : List (List Char) :=
  match splitFirst sep cs with
  | (f, none) => [f]
  | (f, some rest) => [f, (splitFirst sep rest).1]

/-- The destructuring `const [owner, repo] = repository.split('/', 2)`
from `normalizeOpts`: `repo` is `undefined` when there is no separator. -/
def splitRepo (r : String) : String × Option String :=
  match jsSplit2 '/' r.data with
  | [] => ("", none)
  | [o] => (⟨o⟩, none)
  | o :: p :: _ => (⟨o⟩, some ⟨p⟩)

/-- The owner/repo computation of `normalizeOpts` (part_000 line 69):
`repository?.split('/', 2) || [user, user]`. -/
def ownerRepo (repository : Option String) (user : String) : String × Option String :=
  match repository with
  | some r => splitRepo r
  | none => (user, some user)

/-- The published-badge load guard of `getSnapshot` (part_000 lines
133-135): `owner && repo ? await provider.getBadges(...) : []`, where
`loaded` is what the provider's badge load would return. -/
def userBadgesOf (owner : String) (repo : Option String) (loaded : List Badge) : List Badge :=
  if truthyStr owner && truthyOpt repo then loaded else []

/-- The literal start marker `<!-- my-badges start -->`. -/
def startMarker : List Char := "<!-- my-badges start -->".data

/-- The literal end marker `<!-- my-badges end -->`. -/
def endMarker : List Char := "<!-- my-badges end -->".data

/-- JS `String.prototype.indexOf`: index of the first occurrence of
`needle`, or `none` where JS returns `-1`. -/
def strIndexOf (needle : List Char) : List Char → Option Nat
  | [] => if needle.isPrefixOf ([] : List Char) then some 0 else none
  | c :: cs =>
    if needle.isPrefixOf (c :: cs) then some 0
    else (strIndexOf needle cs).map (· + 1)

/-- One badge thumbnail line of `generateReadme` (line 241). -/
def badgeHtml (quoteAttr : String → String) (size : Nat) (b : Badge) : String :=
  "<a href=\"my-badges/" ++ b.id ++ ".md\"><img src=\"" ++ b.image ++
    "\" alt=\"" ++ quoteAttr b.desc ++ "\" title=\"" ++ quoteAttr b.desc ++
    "\" width=\"" ++ toString size ++ "\"></a>"

/-- The joined badge thumbnails (`badges.map(...).join('\n')`). -/
def badgesHtml (quoteAttr : String → String) (size : Nat) (badges : List Badge) : String :=
  String.intercalate "\n" (badges.map (badgeHtml quoteAttr size))

/-- The fixed header block inserted after the start marker. -/
def headerHtml : String :=
  "<h4><a href=\"https://github.com/my-badges/my-badges\">My Badges</a></h4>\n\n"

/-- The replacement span without the optional trailing newline: start
marker, newline, header, badge thumbnails, newline, end marker. -/
def coreBlock (quoteAttr : String → String) (badges : List Badge) (size : Nat) : List Char :=
  startMarker ++ "\n".data ++ headerHtml.data ++
    (badgesHtml quoteAttr size badges).data ++ "\n".data ++ endMarker

/-- The full inserted span, with the conditional trailing newline. -/
def insertedBlock (quoteAttr : String → String) (badges : List Badge) (size : Nat)
    (addNewLine : Bool) : List Char :=
  coreBlock quoteAttr badges size ++ (if addNewLine then ['\n'] else [])

/-- The `needToAddNewLine` test of `generateReadme` (line 232):
`content[end + endString.length + 1] !== '\n'` (note the `+ 1`: this
inspects the character one past the one immediately following the old
end marker; an out-of-range access is `undefined` and so differs from
a newline). -/
def needToAddNewLine (content : List Char) (endIdx : Nat) : Bool :=
  content[endIdx + endMarker.length + 1]? != some '\n'

/-- `generateReadme` from `src/providers/gh/index.ts` (lines 220-256),
over the character list of the document.  `size` enters only through
`parseInt(size + '')`, modelled as a `Nat`. -/
def generateReadme (quoteAttr : String → String) (readme : List Char)
    (badges : List Badge) (size : Nat) : List Char :=
  match strIndexOf startMarker readme, strIndexOf endMarker readme with
  | some s, some e =>
    let content1 := readme.take s ++ readme.drop (e + endMarker.length)
    content1.take s ++
      insertedBlock quoteAttr badges size (needToAddNewLine readme e) ++
      content1.drop s
  | _, _ => readme

end MyBadges

namespace MyBadges

/-! ### Helper lemmas -/

theorem splitFirst_no_sep (sep : Char) :
    ∀ cs : List Char, (∀ c ∈ cs, c ≠ sep) → splitFirst sep cs = (cs, none) := by
  intro cs
  induction cs with
  | nil => intro _; rfl
  | cons c cs ih =>
    intro h
    have hc : c ≠ sep := h c (List.mem_cons_self c cs)
    have hrest : splitFirst sep cs = (cs, none) :=
      ih (fun x hx => h x (List.mem_cons_of_mem c hx))
    simp [splitFirst, hc, hrest]

theorem strIndexOf_le_length (needle : List Char) :
    ∀ (hay : List Char) (i : Nat), strIndexOf needle hay = some i → i ≤ hay.length := by
  intro hay
  induction hay with
  | nil =>
    intro i h
    unfold strIndexOf at h
    split at h
    · cases h; exact Nat.le_refl 0
    · cases h
  | cons c cs ih =>
    intro i h
    unfold strIndexOf at h
    split at h
    · cases h; exact Nat.zero_le _
    · cases hj : strIndexOf needle cs with
      | none => rw [hj] at h; cases h
      | some j =>
        rw [hj] at h
        simp only [Option.map_some'] at h
        cases h
        have := ih j hj
        simp only [List.length_cons]
        omega

theorem normTier_idem (b : Badge) : normTier (normTier b) = normTier b := by
  by_cases h : b.tier = none <;> simp [normTier, h]

/-- The full functional characterization of `generateReadme` when both
markers occur: the result is the original prefix before the start
marker, then the regenerated span, then the original text after the end
of the end marker. -/
theorem generateReadme_eq (quoteAttr : String → String) (readme : List Char)
    (badges : List Badge) (size : Nat) (s e : Nat)
    (hs : strIndexOf startMarker readme = some s)
    (he : strIndexOf endMarker readme = some e) :
    generateReadme quoteAttr readme badges size =
      readme.take s ++
        insertedBlock quoteAttr badges size (needToAddNewLine readme e) ++
        readme.drop (e + endMarker.length) := by
  have hsle : s ≤ readme.length := strIndexOf_le_length startMarker readme s hs
  have hlen : (readme.take s).length = s := by
    rw [List.length_take]; omega
  have h0 : generateReadme quoteAttr readme badges size =
      (readme.take s ++ readme.drop (e + endMarker.length)).take s ++
        insertedBlock quoteAttr badges size (needToAddNewLine readme e) ++
        (readme.take s ++ readme.drop (e + endMarker.length)).drop s := by
    unfold generateReadme
    rw [hs, he]
  rw [h0, List.take_left' hlen, List.drop_left' hlen]

/-! ### Claim theorems -/

/-- Claim C7: the Synchronizer's content read never raises an error to
its caller (`readImpl` is a total function by construction): a dry-run
read whose local file access fails and a remote read that fails with any
error — "not found" (404) and every other failure alike — both yield the
empty current content with no revision token and no path. -/
theorem read_never_fatal (localFile : Except Unit String) (remote : FetchResult)
    (e : JsError) :
    readImpl true (Except.error ()) remote = ⟨"", none, none⟩ ∧
    readImpl false localFile (.failure e) = ⟨"", none, none⟩ :=
  ⟨rfl, rfl⟩

/-- Claim C3 (as amended earlier claims are not needed; stated as in the
spec): when the start marker or the end marker (or both) does not occur
in the document, `generateReadme` returns the document unchanged, for
every badge list and size. -/
theorem generateReadme_identity_when_marker_missing (quoteAttr : String → String)
    (readme : List Char) (badges : List Badge) (size : Nat)
    (h : strIndexOf startMarker readme = none ∨ strIndexOf endMarker readme = none) :
    generateReadme quoteAttr readme badges size = readme := by
  rcases h with h | h
  · cases hy : strIndexOf endMarker readme <;> simp [generateReadme, h, hy]
  · cases hx : strIndexOf startMarker readme <;> simp [generateReadme, h, hx]

/-- Claim C2: for every document containing both markers (at first
occurrence indices `s` and `e`), every badge list and size,
`generateReadme` keeps every character before the start marker and every
character after the end of the end marker unchanged, and replaces only
the span between and including the two markers (with `insertedBlock`). -/
theorem generateReadme_preserves_outside_markers (quoteAttr : String → String)
    (readme : List Char) (badges : List Badge) (size : Nat) (s e : Nat)
    (hs : strIndexOf startMarker readme = some s)
    (he : strIndexOf endMarker readme = some e) :
    generateReadme quoteAttr readme badges size =
      readme.take s ++
        insertedBlock quoteAttr badges size (needToAddNewLine readme e) ++
        readme.drop (e + endMarker.length) :=
  generateReadme_eq quoteAttr readme badges size s e hs he

/-- Claim C10: when the repo configuration option is a non-empty string
with no '/' separator, `normalizeOpts` yields that string as `owner` and
leaves `repo` undefined, and `getSnapshot` then skips the published-badge
load entirely, returning the empty existing-badge list. -/
theorem normalizeOpts_no_slash_owner_only (s user : String) (loaded : List Badge)
    (h1 : s ≠ "") (h2 : ∀ c ∈ s.data, c ≠ '/') :
    ownerRepo (some s) user = (s, none) ∧ userBadgesOf s none loaded = [] := by
  constructor
  · have hsplit : splitFirst '/' s.data = (s.data, none) := splitFirst_no_sep '/' s.data h2
    simp [ownerRepo, splitRepo, jsSplit2, hsplit]
  · simp [userBadgesOf, truthyOpt]

/-- Claim C8: after loading the published badge list, every record whose
`tier` field was absent has been given tier 0, and the normalization is
idempotent: renormalizing an already-normalized list changes nothing. -/
theorem getBadges_tier_default_idempotent (dryrun : Bool)
    (localFile : Except Unit String) (remote : FetchResult)
    (parse : String → Except JsError (List Badge)) (recs : List Badge)
    (hp : parse (readImpl dryrun localFile remote).content = .ok recs) :
    getBadges dryrun localFile remote parse = .ok (recs.map normTier) ∧
    (∀ r ∈ recs, r.tier = none → (normTier r).tier = some 0) ∧
    (recs.map normTier).map normTier = recs.map normTier := by
  refine ⟨by simp [getBadges, hp], fun r _ hr => by simp [normTier, hr], ?_⟩
  induction recs with
  | nil => rfl
  | cons r rs ih => simp [ih, normTier_idem]

/-- Claim C9: when the stored manifest content is present but not
parseable as JSON, `getBadges` returns the empty badge list rather than
raising; and the only errors `getBadges` can ever re-throw are
`RequestError`s with a status other than 404 — every other exception,
including JSON parse errors, is swallowed and yields `[]`. -/
theorem getBadges_parse_failure_yields_empty :
    (∀ (localFile : Except Unit String) (c sha p : String)
      (parse : String → Except JsError (List Badge)),
      parse c = .error .jsParseError →
      getBadges false localFile (.success c sha p) parse = .ok []) ∧
    (∀ (dryrun : Bool) (localFile : Except Unit String) (remote : FetchResult)
      (parse : String → Except JsError (List Badge)) (e : JsError),
      getBadges dryrun localFile remote parse = .error e →
      ∃ st, e = .requestError st ∧ st ≠ 404) := by
  constructor
  · intro localFile c sha p parse hp
    simp [getBadges, readImpl, hp]
  · intro dryrun localFile remote parse e h
    unfold getBadges at h
    cases hq : parse (readImpl dryrun localFile remote).content with
    | ok recs => rw [hq] at h; cases h
    | error e' =>
      rw [hq] at h
      cases e' with
      | requestError st =>
        by_cases h4 : st = 404
        · simp [h4] at h
        · refine ⟨st, ?_, h4⟩
          simp [h4] at h
          exact h.symm
      | jsParseError => cases h
      | jsTypeError => cases h

/-- A parse function with the one property `JSON.parse` is relied on
for here: the empty string is not valid JSON and raises a SyntaxError. -/
def parseEmptyErr : String → Except JsError (List Badge) :=
  fun s => if s.isEmpty then .error .jsParseError else .ok []

/-- A sample published badge record (with a tier). -/
def demoBadge : Badge := ⟨"demo", "img", "desc", "body", some 1⟩

/-- Claim C6 (code bug evaluation): the published-badge load does return
`[]` when owner/repo are not both present and when the fetch reports
404, but a non-404 fetch failure (here status 500) does NOT propagate:
`read` swallows it and returns `''`, `JSON.parse('')` then raises a
SyntaxError, and the `catch` swallows that too, so `getBadges` returns
`.ok []` — the non-404 re-throw branch is unreachable for fetch errors. -/
theorem getBadges_swallows_non404_fetch_failure :
    getBadges false (Except.error ()) (.failure (.requestError 500)) parseEmptyErr =
      .ok [] ∧
    getBadges false (Except.error ()) (.failure (.requestError 404)) parseEmptyErr =
      .ok [] ∧
    userBadgesOf "alice" none [demoBadge] = [] :=
  ⟨rfl, rfl, rfl⟩

/-- Claim C5: when `upsert` decides to write, the remote write it issues
is tagged with exactly the sha obtained by the read in the same `upsert`
call; in dry-run mode the write goes to a local file under the working
directory and no revision token is used (the local write carries none)
or produced (the dry-run read yields no sha). -/
theorem upsert_write_sha_tagging (cwd contentPath desired : String)
    (localFile : Except Unit String) (remote : FetchResult) :
    (desired ≠ (readImpl false localFile remote).content →
      upsert false cwd contentPath desired localFile remote =
        some (.put (pathOr (readImpl false localFile remote).path contentPath)
          (commitMessage contentPath (readImpl false localFile remote).sha)
          desired ((readImpl false localFile remote).sha))) ∧
    (readImpl true localFile remote).sha = none ∧
    (desired ≠ (readImpl true localFile remote).content →
      upsert true cwd contentPath desired localFile remote =
        some (.localWrite cwd contentPath desired)) := by
  refine ⟨fun h => ?_, ?_, fun h => ?_⟩
  · simp [upsert, upload, h]
  · cases localFile <;> simp [readImpl]
  · simp [upsert, upload, h]

/-- Claim C1: if the desired content equals the content currently read
from the store, `upsert` performs no write; running it twice in a row
with identical desired content and an otherwise-unchanged store makes
the second call perform zero writes, and the total number of writes of
the two calls is one when the initial content differed (and zero when it
already matched, per the first conjunct). -/
theorem upsert_no_write_when_equal_and_idempotent (dryrun : Bool)
    (cwd contentPath desired : String) (localFile : Except Unit String)
    (remote : FetchResult) (newSha : String) :
    (desired = (readImpl dryrun localFile remote).content →
      upsert dryrun cwd contentPath desired localFile remote = none) ∧
    upsert dryrun cwd contentPath desired
      (applyWrite remote localFile
        (upsert dryrun cwd contentPath desired localFile remote) newSha).2
      (applyWrite remote localFile
        (upsert dryrun cwd contentPath desired localFile remote) newSha).1 = none ∧
    countWrites (upsert dryrun cwd contentPath desired localFile remote) +
      countWrites (upsert dryrun cwd contentPath desired
        (applyWrite remote localFile
          (upsert dryrun cwd contentPath desired localFile remote) newSha).2
        (applyWrite remote localFile
          (upsert dryrun cwd contentPath desired localFile remote) newSha).1) =
      if desired = (readImpl dryrun localFile remote).content then 0 else 1 := by
  cases dryrun with
  | false =>
    cases remote with
    | success c sha p =>
      by_cases h : desired = c <;>
        simp [upsert, upload, applyWrite, readImpl, countWrites, h]
    | failure e =>
      by_cases h : desired = "" <;>
        simp [upsert, upload, applyWrite, readImpl, countWrites, h]
  | true =>
    cases localFile with
    | ok s =>
      by_cases h : desired = s <;>
        simp [upsert, upload, applyWrite, readImpl, countWrites, h]
    | error u =>
      by_cases h : desired = "" <;>
        simp [upsert, upload, applyWrite, readImpl, countWrites, h]

/-- The identity attribute-escaper, used at concrete inputs. -/
def idStr : String → String := fun s => s

/-- Document falsifying claim C4: the end marker (at index 24) is
followed immediately by 'X' (index 46) and then a newline (index 47). -/
def docCex : List Char := startMarker ++ endMarker ++ "X\n".data

/-- Claim C4 counterexample: in `docCex` the character immediately
following the old end marker is 'X', not a newline, so the claim demands
an appended newline after the inserted block; but the code inspects the
character one position further (the '\n' at index 47) and therefore
appends none — the claimed equivalence is false at this input. -/
theorem generateReadme_newline_claim_counterexample :
    docCex[24 + endMarker.length]? ≠ some '\n' ∧
    generateReadme idStr docCex [] 64 =
      docCex.take 0 ++ coreBlock idStr [] 64 ++ docCex.drop (24 + endMarker.length) ∧
    ¬ ((generateReadme idStr docCex [] 64 =
        docCex.take 0 ++ coreBlock idStr [] 64 ++ '\n' ::
          docCex.drop (24 + endMarker.length)) ↔
       docCex[24 + endMarker.length]? ≠ some '\n') := by
  refine ⟨by decide, by decide, ?_⟩
  intro hiff
  have := hiff.mpr (by decide)
  exact absurd this (by decide)

/-- Claim C4 as amended: when both markers are present, `generateReadme`
appends a trailing newline after the inserted block if and only if the
character of the original document at offset `end + endMarker.length + 1`
— one past the character immediately following the old end marker — is
not a newline (an absent character counts as not-a-newline). -/
theorem generateReadme_newline_amended (quoteAttr : String → String)
    (readme : List Char) (badges : List Badge) (size : Nat) (s e : Nat)
    (hs : strIndexOf startMarker readme = some s)
    (he : strIndexOf endMarker readme = some e) :
    (generateReadme quoteAttr readme badges size =
      readme.take s ++ coreBlock quoteAttr badges size ++ '\n' ::
        readme.drop (e + endMarker.length)) ↔
    readme[e + endMarker.length + 1]? ≠ some '\n' := by
  rw [generateReadme_eq quoteAttr readme badges size s e hs he]
  by_cases hnl : readme[e + endMarker.length + 1]? = some '\n'
  · have hb : needToAddNewLine readme e = false := by
      simp [needToAddNewLine, hnl]
    rw [hb]
    simp only [insertedBlock, if_neg Bool.false_ne_true, List.append_nil, hnl,
      ne_eq, not_true_eq_false, iff_false]
    intro hEq
    have hlen := congrArg List.length hEq
    simp only [List.length_append, List.length_cons] at hlen
    omega
  · have hb : needToAddNewLine readme e = true := by
      simp [needToAddNewLine, hnl]
    rw [hb]
    simp [insertedBlock, hnl, List.append_assoc, List.singleton_append]

/-! ### Witnesses -/

/-- A document containing both markers and nothing else. -/
def docBoth : List Char := startMarker ++ endMarker

/-- A document whose end marker is followed by 'a' then 'b'. -/
def docAmend : List Char := startMarker ++ endMarker ++ "ab".data

/-- A legacy record with no tier. -/
def recNoTier : Badge := ⟨"hello", "i", "d", "b", none⟩

/-- A record that already has a tier. -/
def recTier2 : Badge := ⟨"stars", "i2", "d2", "b2", some 2⟩

/-- A parse function returning a fixed two-record manifest. -/
def parseConst : String → Except JsError (List Badge) :=
  fun _ => .ok [recNoTier, recTier2]

/-- A parse function that always raises a SyntaxError. -/
def parseAlwaysErr : String → Except JsError (List Badge) :=
  fun _ => .error .jsParseError

theorem upsert_no_write_when_equal_and_idempotent_witness :
    upsert false "" "p" "new"
      (applyWrite (FetchResult.success "old" "sha0" "rp") (Except.error ())
        (upsert false "" "p" "new" (Except.error ())
          (FetchResult.success "old" "sha0" "rp")) "sha1").2
      (applyWrite (FetchResult.success "old" "sha0" "rp") (Except.error ())
        (upsert false "" "p" "new" (Except.error ())
          (FetchResult.success "old" "sha0" "rp")) "sha1").1 = none ∧
    countWrites (upsert false "" "p" "new" (Except.error ())
        (FetchResult.success "old" "sha0" "rp")) +
      countWrites (upsert false "" "p" "new"
        (applyWrite (FetchResult.success "old" "sha0" "rp") (Except.error ())
          (upsert false "" "p" "new" (Except.error ())
            (FetchResult.success "old" "sha0" "rp")) "sha1").2
        (applyWrite (FetchResult.success "old" "sha0" "rp") (Except.error ())
          (upsert false "" "p" "new" (Except.error ())
            (FetchResult.success "old" "sha0" "rp")) "sha1").1) = 1 ∧
    upsert false "" "p" "same" (Except.error ())
      (FetchResult.success "same" "s" "q") = none := by
  have T := upsert_no_write_when_equal_and_idempotent false "" "p" "new"
    (Except.error ()) (.success "old" "sha0" "rp") "sha1"
  refine ⟨T.2.1, T.2.2.trans (by decide), ?_⟩
  exact (upsert_no_write_when_equal_and_idempotent false "" "p" "same"
    (Except.error ()) (.success "same" "s" "q") "x").1 (by decide)

theorem generateReadme_preserves_outside_markers_witness :
    generateReadme idStr docBoth [] 64 =
      docBoth.take 0 ++
        insertedBlock idStr [] 64 (needToAddNewLine docBoth 24) ++
        docBoth.drop (24 + endMarker.length) :=
  generateReadme_preserves_outside_markers idStr docBoth [] 64 0 24
    (by decide) (by decide)

theorem generateReadme_identity_when_marker_missing_witness :
    generateReadme idStr "hello".data [] 64 = "hello".data :=
  generateReadme_identity_when_marker_missing idStr "hello".data [] 64
    (Or.inl (by decide))

theorem generateReadme_newline_amended_witness :
    generateReadme idStr docAmend [] 64 =
      docAmend.take 0 ++ coreBlock idStr [] 64 ++ '\n' ::
        docAmend.drop (24 + endMarker.length) :=
  (generateReadme_newline_amended idStr docAmend [] 64 0 24
    (by decide) (by decide)).mpr (by decide)

theorem upsert_write_sha_tagging_witness :
    upsert false "" "p" "new" (Except.error ())
      (FetchResult.success "old" "sha0" "rp") =
      some (WriteAction.put "rp" "chore: p updated" "new" (some "sha0")) ∧
    upsert true "cwd" "p" "new" (Except.ok "old")
      (FetchResult.success "x" "y" "z") =
      some (WriteAction.localWrite "cwd" "p" "new") := by
  have T := upsert_write_sha_tagging "" "p" "new" (Except.error ())
    (.success "old" "sha0" "rp")
  have T2 := upsert_write_sha_tagging "cwd" "p" "new" (Except.ok "old")
    (.success "x" "y" "z")
  exact ⟨(T.1 (by decide)).trans (by decide), T2.2.2 (by decide)⟩

theorem read_never_fatal_witness :
    readImpl false (Except.ok "local") (.failure (.requestError 500)) =
      ⟨"", none, none⟩ :=
  (read_never_fatal (Except.ok "local") (.failure (.requestError 500))
    (.requestError 500)).2

theorem getBadges_tier_default_idempotent_witness :
    getBadges false (Except.error ()) (FetchResult.success "m" "sha" "pp")
      parseConst = .ok [⟨"hello", "i", "d", "b", some 0⟩, recTier2] := by
  have T := getBadges_tier_default_idempotent false (Except.error ())
    (.success "m" "sha" "pp") parseConst [recNoTier, recTier2] rfl
  exact T.1.trans rfl

theorem getBadges_parse_failure_yields_empty_witness :
    getBadges false (Except.error ()) (FetchResult.success "not json" "sha" "pp")
      parseAlwaysErr = .ok [] :=
  getBadges_parse_failure_yields_empty.1 (Except.error ()) "not json" "sha" "pp"
    parseAlwaysErr rfl

theorem normalizeOpts_no_slash_owner_only_witness :
    ownerRepo (some "foo") "u" = ("foo", none) ∧
    userBadgesOf "foo" none [demoBadge] = [] :=
  normalizeOpts_no_slash_owner_only "foo" "u" [demoBadge] (by decide) (by decide)

end MyBadges
